import Mathlib

/-!
Shallow embedding of the field validation/reformatting pipeline from
`src/Telegram/SourceFiles/payments/ui/payments_edit_card.cpp`.

Strings are modelled as `List Char`, Qt `int` positions as `Nat` (they are
always non-negative at the modelled call sites). Qt string operations used
by the source are modelled by `qMid`, `qMidFrom`, `qInsertAt` and `qCharAt`
below, each matching Qt semantics in the argument ranges the source reaches.
-/

namespace PaymentsEditCard

/-- Embedding of `SimpleFieldState` (payments_edit_card.cpp, lines 27-30):
a field value together with a cursor position. -/
structure SimpleFieldState where
  value : List Char
  position : Nat
deriving DecidableEq

/-- Embedding of `FieldValidateRequest` (declared in payments_field.h, used
here): the before and after snapshots of one edit. `wasAnchor` is the
selection anchor of the before snapshot. -/
structure FieldValidateRequest where
  wasValue : List Char
  wasPosition : Nat
  wasAnchor : Nat
  nowValue : List Char
  nowPosition : Nat
deriving DecidableEq

/-- Models `QString::mid(pos, n)` for `pos, n ≥ 0`: the substring of length
at most `n` starting at `pos` (empty when `pos` is past the end). -/
def qMid (s : List Char) (pos n : Nat) : List Char :=
  (s.drop pos).take n

/-- Models `QString::mid(pos)` for `pos ≥ 0`: the suffix starting at `pos`. -/
def qMidFrom (s : List Char) (pos : Nat) : List Char :=
  s.drop pos

/-- Models `QString::insert(i, c)` for `0 ≤ i ≤ size` (the only range the
source reaches): insert `c` before index `i`. -/
def qInsertAt (s : List Char) (i : Nat) (c : Char) : List Char :=
  s.take i ++ c :: s.drop i

/-- Models reading `value[i]` through Qt 5 `QCharRef`: an in-range read
yields the character, an out-of-range read yields the null `QChar(0)`. -/
def qCharAt (s : List Char) (i : Nat) : Char :=
  s.getD i (Char.ofNat 0)

/-- Embedding of `RemoveNonNumbers` (lines 40-42): drop every character
outside `0`-`9` (the regex `[^0-9]`). -/
def RemoveNonNumbers (value : List Char) : List Char :=
  value.filter Char.isDigit

/-- Embedding of `NumbersOnlyState` (lines 44-50): strip the value to its
digits and remap the cursor to the count of digits strictly before it. -/
def NumbersOnlyState (state : SimpleFieldState) : SimpleFieldState :=
  { value := RemoveNonNumbers state.value,
    position := (RemoveNonNumbers (qMid state.value 0 state.position)).length }

/-- Embedding of the group loop of `PostprocessCardValidateResult`
(lines 55-66): walk the group lengths, inserting a space after each group
boundary that falls strictly before the end of the current value, bumping
the cursor for every insertion at or before it, and stopping at the first
boundary at or past the end. -/
def cardFormatLoop : List Nat → Nat → SimpleFieldState → SimpleFieldState
  | [], _, result => result
  | len :: groups, position, result =>
    if result.value.length ≤ position + len then
      result
    else
      cardFormatLoop groups (position + len + 1)
        { value := qInsertAt result.value (position + len) ' ',
          position :=
            if position + len ≤ result.position then result.position + 1
            else result.position }

/-- Embedding of `PostprocessCardValidateResult` (lines 52-68). The source
obtains `groups` from the external `Stripe::CardNumberFormat(result.value)`
(a black-box grouping-scheme lookup over the digit content); it is taken
here as a parameter. -/
def PostprocessCardValidateResult (groups : List Nat)
    (result : SimpleFieldState) : SimpleFieldState :=
  cardFormatLoop groups 0 result

/-- Embedding of `PostprocessExpireDateValidateResult` (lines 70-91).
Reads of `result.value[0]` and `result.value[1]` go through `qCharAt`,
matching the Qt 5 `QCharRef` out-of-range behaviour. -/
def PostprocessExpireDateValidateResult
    (result : SimpleFieldState) : SimpleFieldState :=
  if result.value.isEmpty then
    result
  else if qCharAt result.value 0 = '1' ∧ '2' < qCharAt result.value 1 then
    { value := qMid result.value 0 2, position := result.position }
  else
    let r :=
      if '1' < qCharAt result.value 0 then
        { value := '0' :: result.value, position := result.position + 1 }
      else
        result
    if 1 < r.value.length then
      let v := if 4 < r.value.length then qMid r.value 0 4 else r.value
      { value := qInsertAt v 2 '/',
        position := if 2 ≤ r.position then r.position + 1 else r.position }
    else
      r

/-- Index trace of `PostprocessExpireDateValidateResult`: the positions at
which the source reads a character via `operator[]` (line 74 and line 77).
Index `0` is read whenever the value is non-empty; index `1` is read only
when the first conjunct `result.value[0] == '1'` holds, because `&&`
short-circuits. -/
def expireReadIndices (value : List Char) : List Nat :=
  if value.isEmpty then []
  else if qCharAt value 0 = '1' then [0, 1]
  else [0]

/-- Embedding of `IsBackspace` (lines 93-100). -/
def IsBackspace (request : FieldValidateRequest) : Bool :=
  (request.wasAnchor == request.wasPosition)
    && (request.wasPosition == request.nowPosition + 1)
    && (qMid request.wasValue 0 (request.wasPosition - 1)
      == qMid request.nowValue 0 request.nowPosition)
    && (qMidFrom request.wasValue request.wasPosition
      == qMidFrom request.nowValue request.nowPosition)

/-- Embedding of `IsDelete` (lines 102-109). -/
def IsDelete (request : FieldValidateRequest) : Bool :=
  (request.wasAnchor == request.wasPosition)
    && (request.wasPosition == request.nowPosition)
    && (qMid request.wasValue 0 request.wasPosition
      == qMid request.nowValue 0 request.nowPosition)
    && (qMidFrom request.wasValue (request.wasPosition + 1)
      == qMidFrom request.nowValue request.nowPosition)

/-- Embedding of the `realNowState` lambda inside `ComplexNumberValidator`
(lines 120-146): for an edit classified as neither backspace nor delete,
strip the after snapshot; otherwise reconstruct the stripped state from the
before snapshot. `std::max(position - 1, 0)` on non-negative ints is `Nat`
truncated subtraction. -/
def complexRealNowState (request : FieldValidateRequest) : SimpleFieldState :=
  let backspaced := IsBackspace request
  let deleted := IsDelete request
  if !backspaced && !deleted then
    NumbersOnlyState { value := request.nowValue, position := request.nowPosition }
  else
    let realWasState := NumbersOnlyState
      { value := request.wasValue, position := request.wasPosition }
    let changedValue :=
      if deleted then
        qMid realWasState.value 0 realWasState.position
          ++ qMidFrom realWasState.value (realWasState.position + 1)
      else if 1 < realWasState.position then
        qMid realWasState.value 0 (realWasState.position - 1)
          ++ qMidFrom realWasState.value realWasState.position
      else
        qMidFrom realWasState.value realWasState.position
    { value := changedValue,
      position :=
        if deleted then realWasState.position
        else realWasState.position - 1 }

/-- Value and cursor of the result of the expiry-date validator built by
`ComplexNumberValidator` (lines 147-154): the postprocessed reconstructed
state. The external classifier only contributes the `invalid` and
`finished` flags, not the value or cursor. -/
def ExpireDateValidatorState (request : FieldValidateRequest) : SimpleFieldState :=
  PostprocessExpireDateValidateResult (complexRealNowState request)

/-- Value and cursor of the result of the card-number validator built by
`ComplexNumberValidator`, with the grouping scheme as a parameter. -/
def CardNumberValidatorState (groups : List Nat)
    (request : FieldValidateRequest) : SimpleFieldState :=
  PostprocessCardValidateResult groups (complexRealNowState request)

/-- Value and cursor of the result of `CvcValidator` (lines 171-187): the
numbers-only projection of the after snapshot, with no snapshot diffing. -/
def CvcValidatorState (request : FieldValidateRequest) : SimpleFieldState :=
  NumbersOnlyState { value := request.nowValue, position := request.nowPosition }

/-- Modelled from the spec (section 4.1, Snapshot Differencer), for the
refinement comparison of claim C9: on a backward delete, "remove the digit
immediately before the stripped cursor (if cursor > 1), else remove the
digit at the (clamped) cursor; cursor decreases by one (floored at 0)". -/
def specBackspaceReconstruct (s : SimpleFieldState) : SimpleFieldState :=
  if 1 < s.position then
    { value := s.value.eraseIdx (s.position - 1), position := s.position - 1 }
  else
    { value := s.value.eraseIdx (min s.position (s.value.length - 1)),
      position := s.position - 1 }

/-- Inserting a non-digit character anywhere leaves the digit projection of
a value unchanged. -/
lemma filter_qInsertAt_of_neg (v : List Char) (i : Nat) (c : Char)
    (hc : Char.isDigit c = false) :
    (qInsertAt v i c).filter Char.isDigit = v.filter Char.isDigit := by
  rw [qInsertAt, List.filter_append, List.filter_cons_of_neg (by simp [hc]),
    ← List.filter_append, List.take_append_drop]

/-- Inserting a space at position `i ≤ length` while bumping a cursor at or
past `i` leaves the digits strictly before the cursor unchanged. -/
lemma filter_take_qInsertAt_space (v : List Char) (i p : Nat)
    (hi : i ≤ v.length) :
    ((qInsertAt v i ' ').take (if i ≤ p then p + 1 else p)).filter Char.isDigit
      = (v.take p).filter Char.isDigit := by
  have hlen : (v.take i).length = i := by
    rw [List.length_take]; omega
  by_cases hip : i ≤ p
  · rw [if_pos hip, qInsertAt, List.take_append_eq_append_take, hlen]
    have h1 : List.take (p + 1) (List.take i v) = List.take i v :=
      List.take_of_length_le (by rw [hlen]; omega)
    have h2 : p + 1 - i = (p - i) + 1 := by omega
    rw [h1, h2, List.take_succ_cons, List.filter_append,
      List.filter_cons_of_neg (by decide)]
    conv_rhs => rw [show p = i + (p - i) by omega, List.take_add,
      List.filter_append]
  · rw [if_neg hip, qInsertAt, List.take_append_eq_append_take, hlen]
    have h2 : p - i = 0 := by omega
    have h3 : List.take p (List.take i v) = List.take p v := by
      rw [List.take_take]
      congr 1
      omega
    rw [h2, List.take_zero, h3, List.append_nil]

/-- One space insertion of the card-format loop preserves the numbers-only
projection of the state. -/
lemma numbersOnly_qInsertAt_space (v : List Char) (i p : Nat)
    (hi : i ≤ v.length) :
    NumbersOnlyState ⟨qInsertAt v i ' ', if i ≤ p then p + 1 else p⟩
      = NumbersOnlyState ⟨v, p⟩ := by
  unfold NumbersOnlyState RemoveNonNumbers qMid
  simp only [List.drop_zero]
  refine congrArg₂ SimpleFieldState.mk ?_ ?_
  · exact filter_qInsertAt_of_neg v i ' ' (by decide)
  · rw [filter_take_qInsertAt_space v i p hi]

/-- The card-format loop preserves the numbers-only projection of its
state, for every group list and start offset. -/
lemma numbersOnly_cardFormatLoop (groups : List Nat) :
    ∀ (q : Nat) (x : SimpleFieldState),
      NumbersOnlyState (cardFormatLoop groups q x) = NumbersOnlyState x := by
  induction groups with
  | nil => intro q x; rfl
  | cons len gs ih =>
    intro q x
    rw [cardFormatLoop]
    split
    · rfl
    · rename_i h
      rw [ih]
      exact numbersOnly_qInsertAt_space x.value (q + len) x.position (by omega)

/-- The numbers-only projection fixes a state whose value is all digits and
whose cursor is in bounds. -/
lemma numbersOnly_of_digits (x : SimpleFieldState)
    (hd : ∀ c ∈ x.value, c.isDigit = true) (hp : x.position ≤ x.value.length) :
    NumbersOnlyState x = x := by
  obtain ⟨v, p⟩ := x
  unfold NumbersOnlyState RemoveNonNumbers qMid
  simp only [List.drop_zero]
  refine congrArg₂ SimpleFieldState.mk ?_ ?_
  · exact List.filter_eq_self.mpr hd
  · rw [List.filter_eq_self.mpr fun c hc => hd c (List.take_subset _ _ hc),
      List.length_take]
    have hp2 : p ≤ v.length := hp
    show p ⊓ v.length = p
    omega

/-- A list included in an all-digit list is fixed by the digit filter. -/
lemma filter_digits_sub {v w : List Char} (hsub : v ⊆ w)
    (hd : ∀ c ∈ w, c.isDigit = true) : v.filter Char.isDigit = v :=
  List.filter_eq_self.mpr fun c hc => hd c (hsub hc)

/-- A character read strictly below position 1 being greater than `'2'`
forces the value to have at least two characters, since the out-of-range
read yields the null character. -/
lemma one_lt_length_of_two_lt_qCharAt (v : List Char)
    (h : '2' < qCharAt v 1) : 1 < v.length := by
  by_contra hlen
  have hnone : v[1]? = none := List.getElem?_eq_none (by omega)
  have hz : qCharAt v 1 = Char.ofNat 0 := by
    unfold qCharAt
    rw [List.getD_eq_getElem?_getD, hnone]
    rfl
  rw [hz] at h
  exact absurd h (by decide)

/-- Reading within the kept range of a `take` sees the original character. -/
lemma qCharAt_take (v : List Char) (n i : Nat) (hin : i < n) :
    qCharAt (v.take n) i = qCharAt v i := by
  unfold qCharAt
  rw [List.getD_eq_getElem?_getD, List.getD_eq_getElem?_getD,
    List.getElem?_take, if_pos hin]

/-- Reading position 0 of a non-empty list sees its head. -/
lemma qCharAt_cons_zero (c : Char) (t : List Char) : qCharAt (c :: t) 0 = c :=
  rfl

/-- Closed form of the truncate-then-slash step of the expiry formatter: it
keeps at most two characters on each side of the inserted slash. -/
lemma slashValue (w : List Char) (hw : 1 < w.length) :
    qInsertAt (if 4 < w.length then qMid w 0 4 else w) 2 '/'
      = w.take 2 ++ '/' :: (w.drop 2).take 2 := by
  by_cases h4 : 4 < w.length
  · rw [if_pos h4, qMid, List.drop_zero, qInsertAt, List.take_take,
      List.drop_take, show (2 : Nat) ⊓ 4 = 2 by decide,
      show (4 : Nat) - 2 = 2 by decide]
  · rw [if_neg h4, qInsertAt]
    congr 2
    exact (List.take_of_length_le (by rw [List.length_drop]; omega)).symm

/-- The digit projection of a slashed expiry value recovers the first four
digits of the underlying digit string. -/
lemma filter_slashed (w : List Char) (hd : ∀ c ∈ w, c.isDigit = true) :
    (w.take 2 ++ '/' :: (w.drop 2).take 2).filter Char.isDigit = w.take 4 := by
  rw [List.filter_append, List.filter_cons_of_neg (by decide),
    filter_digits_sub (List.take_subset _ _) hd,
    filter_digits_sub
      (fun c hc => List.drop_subset _ _ (List.take_subset _ _ hc)) hd,
    show (4 : Nat) = 2 + 2 from rfl, List.take_add]

/-- Value of the expiry formatter on the invalid-month early return. -/
lemma expireValue_reject (s : SimpleFieldState)
    (h : qCharAt s.value 0 = '1' ∧ '2' < qCharAt s.value 1) :
    (PostprocessExpireDateValidateResult s).value = s.value.take 2 := by
  have hlen := one_lt_length_of_two_lt_qCharAt s.value h.2
  have hne : s.value ≠ [] := by
    intro hv; rw [hv] at hlen; simp at hlen
  have he : s.value.isEmpty = false := by simp [hne]
  unfold PostprocessExpireDateValidateResult
  simp only [he, Bool.false_eq_true, if_false, if_pos h, qMid, List.drop_zero]

/-- Value of the expiry formatter on the slash path without leading-zero
insertion. -/
lemma expireValue_slash (s : SimpleFieldState)
    (h1 : ¬(qCharAt s.value 0 = '1' ∧ '2' < qCharAt s.value 1))
    (h2 : ¬('1' < qCharAt s.value 0)) (hlen : 1 < s.value.length) :
    (PostprocessExpireDateValidateResult s).value
      = s.value.take 2 ++ '/' :: (s.value.drop 2).take 2 := by
  have hne : s.value ≠ [] := by
    intro hv; rw [hv] at hlen; simp at hlen
  have he : s.value.isEmpty = false := by simp [hne]
  unfold PostprocessExpireDateValidateResult
  simp only [he, Bool.false_eq_true, if_false, if_neg h1, if_neg h2,
    if_pos hlen, slashValue s.value hlen]

/-- Value of the expiry formatter on the leading-zero insertion path. -/
lemma expireValue_prepend (s : SimpleFieldState)
    (h1 : ¬(qCharAt s.value 0 = '1' ∧ '2' < qCharAt s.value 1))
    (h2 : '1' < qCharAt s.value 0) (hne : s.value ≠ []) :
    (PostprocessExpireDateValidateResult s).value
      = ('0' :: s.value).take 2 ++ '/' :: (('0' :: s.value).drop 2).take 2 := by
  have he : s.value.isEmpty = false := by simp [hne]
  have h0 : 0 < s.value.length := List.length_pos.mpr hne
  have hlen : 1 < ('0' :: s.value).length := by
    rw [List.length_cons]; omega
  unfold PostprocessExpireDateValidateResult
  simp only [he, Bool.false_eq_true, if_false, if_neg h1, if_pos h2,
    if_pos hlen, slashValue ('0' :: s.value) hlen]

/-- The expiry formatter fixes a state that takes none of the rewriting
branches. -/
lemma expire_tiny (s : SimpleFieldState)
    (h1 : ¬(qCharAt s.value 0 = '1' ∧ '2' < qCharAt s.value 1))
    (h2 : ¬('1' < qCharAt s.value 0)) (hlen : ¬1 < s.value.length) :
    PostprocessExpireDateValidateResult s = s := by
  by_cases hemp : s.value.isEmpty = true
  · unfold PostprocessExpireDateValidateResult
    rw [if_pos hemp]
  · unfold PostprocessExpireDateValidateResult
    simp only [if_neg hemp, if_neg h1, if_neg h2, if_neg hlen]

/-- Reformatting a restripped slashed expiry output reproduces the same
slashed value. -/
lemma expire_restrip_slashed (rv : List Char) (hrv : 1 < rv.length)
    (hd : ∀ c ∈ rv, c.isDigit = true)
    (h1 : ¬(qCharAt rv 0 = '1' ∧ '2' < qCharAt rv 1))
    (h2 : ¬('1' < qCharAt rv 0)) (s : SimpleFieldState)
    (hs : s.value
      = (rv.take 2 ++ '/' :: (rv.drop 2).take 2).filter Char.isDigit) :
    (PostprocessExpireDateValidateResult s).value
      = rv.take 2 ++ '/' :: (rv.drop 2).take 2 := by
  have hsv : s.value = rv.take 4 := by rw [hs, filter_slashed rv hd]
  have hlen4 : 1 < (rv.take 4).length := by
    rw [List.length_take]; omega
  have h1s : ¬(qCharAt s.value 0 = '1' ∧ '2' < qCharAt s.value 1) := by
    rw [hsv, qCharAt_take _ _ _ (by omega), qCharAt_take _ _ _ (by omega)]
    exact h1
  have h2s : ¬('1' < qCharAt s.value 0) := by
    rw [hsv, qCharAt_take _ _ _ (by omega)]
    exact h2
  rw [expireValue_slash s h1s h2s (by rw [hsv]; exact hlen4), hsv,
    List.take_take, List.drop_take, List.take_take,
    show (2 : Nat) ⊓ 4 = 2 by decide, show (2 : Nat) ⊓ (4 - 2) = 2 by decide]

/-- Restripping and reformatting an expiry formatter output reproduces its
value, for every all-digit input state. -/
lemma expire_restrip_value (v : List Char) (p : Nat)
    (hd : ∀ c ∈ v, c.isDigit = true) :
    (PostprocessExpireDateValidateResult
        (NumbersOnlyState (PostprocessExpireDateValidateResult ⟨v, p⟩))).value
      = (PostprocessExpireDateValidateResult ⟨v, p⟩).value := by
  by_cases hv : v = []
  · subst hv
    simp [PostprocessExpireDateValidateResult, NumbersOnlyState,
      RemoveNonNumbers, qMid]
  by_cases h1 : qCharAt v 0 = '1' ∧ '2' < qCharAt v 1
  · have hlen := one_lt_length_of_two_lt_qCharAt v h1.2
    have hz : (PostprocessExpireDateValidateResult ⟨v, p⟩).value = v.take 2 :=
      expireValue_reject ⟨v, p⟩ h1
    have hNz : (NumbersOnlyState
        (PostprocessExpireDateValidateResult ⟨v, p⟩)).value = v.take 2 := by
      simp only [NumbersOnlyState, RemoveNonNumbers, hz]
      exact filter_digits_sub (List.take_subset _ _) hd
    have h1s : qCharAt (NumbersOnlyState
          (PostprocessExpireDateValidateResult ⟨v, p⟩)).value 0 = '1'
        ∧ '2' < qCharAt (NumbersOnlyState
          (PostprocessExpireDateValidateResult ⟨v, p⟩)).value 1 := by
      rw [hNz, qCharAt_take _ _ _ (by omega), qCharAt_take _ _ _ (by omega)]
      exact h1
    rw [expireValue_reject _ h1s, hNz, hz, List.take_take,
      show (2 : Nat) ⊓ 2 = 2 by decide]
  by_cases h2 : '1' < qCharAt v 0
  · have hz := expireValue_prepend ⟨v, p⟩ h1 h2 hv
    have hd0 : ∀ c ∈ '0' :: v, c.isDigit = true := by
      intro c hc
      rcases List.mem_cons.mp hc with hc0 | hcv
      · rw [hc0]; decide
      · exact hd c hcv
    have h0 : 0 < v.length := List.length_pos.mpr hv
    have hrvlen : 1 < ('0' :: v).length := by
      rw [List.length_cons]; omega
    have h1r : ¬(qCharAt ('0' :: v) 0 = '1' ∧ '2' < qCharAt ('0' :: v) 1) := by
      rw [qCharAt_cons_zero]
      rintro ⟨hh, -⟩
      exact absurd hh (by decide)
    have h2r : ¬('1' < qCharAt ('0' :: v) 0) := by
      rw [qCharAt_cons_zero]
      decide
    rw [hz]
    exact expire_restrip_slashed ('0' :: v) hrvlen hd0 h1r h2r _
      (by simp only [NumbersOnlyState, RemoveNonNumbers, hz])
  by_cases hlen : 1 < v.length
  · have hz := expireValue_slash ⟨v, p⟩ h1 h2 hlen
    rw [hz]
    exact expire_restrip_slashed v hlen hd h1 h2 _
      (by simp only [NumbersOnlyState, RemoveNonNumbers, hz])
  · have hz := expire_tiny ⟨v, p⟩ h1 h2 hlen
    rw [hz]
    have hNv : (NumbersOnlyState (⟨v, p⟩ : SimpleFieldState)).value = v := by
      simp only [NumbersOnlyState, RemoveNonNumbers]
      exact List.filter_eq_self.mpr hd
    have hz2 := expire_tiny (NumbersOnlyState ⟨v, p⟩)
      (by rw [hNv]; exact h1) (by rw [hNv]; exact h2) (by rw [hNv]; exact hlen)
    rw [hz2, hNv]

/-- Restripping and reformatting a card formatter output reproduces the
whole output state, for every grouping scheme and every all-digit input
state with in-bounds cursor. -/
lemma card_restrip_idempotent (groups : List Nat) (x : SimpleFieldState)
    (hd : ∀ c ∈ x.value, c.isDigit = true) (hp : x.position ≤ x.value.length) :
    PostprocessCardValidateResult groups
        (NumbersOnlyState (PostprocessCardValidateResult groups x))
      = PostprocessCardValidateResult groups x := by
  simp only [PostprocessCardValidateResult]
  rw [numbersOnly_cardFormatLoop, numbersOnly_of_digits x hd hp]

/-- C1: the expiry-date pipeline violates the cursor-bounds invariant: at
the edit request with empty before snapshot and after snapshot value
`"12345"`, cursor 5 (an other-edit, e.g. a paste of five digits with the
cursor at the end), the validator returns value `"12/34"` of length 5 with
cursor position 6, which exceeds the length. -/
theorem c1_expire_cursor_exceeds_length :
    ExpireDateValidatorState ⟨[], 0, 0, "12345".toList, 5⟩
        = ⟨"12/34".toList, 6⟩
      ∧ (ExpireDateValidatorState ⟨[], 0, 0, "12345".toList, 5⟩).value.length
        < (ExpireDateValidatorState ⟨[], 0, 0, "12345".toList, 5⟩).position := by
  decide

/-- C2 counterexample: the expiry-date formatter applied to the stripped
digit string `"3"` outputs `"03/"`, whose digit multiset `{0, 3}` differs
from the input digit multiset `{3}` — the formatter added the leading
zero digit. -/
theorem c2_expire_digit_multiset_counterexample :
    (((PostprocessExpireDateValidateResult ⟨['3'], 1⟩).value.filter
        Char.isDigit : List Char) : Multiset Char)
      ≠ (((['3'] : List Char).filter Char.isDigit : List Char) : Multiset Char) := by
  decide

/-- C2 amended: digit preservation holds for the card-number formatter
under every grouping scheme — the multiset of digit characters of the
output value equals that of the input value; the expiry-date formatter can
add the leading zero digit and can drop digits by truncation. -/
theorem c2_card_digit_multiset_preserved (groups : List Nat)
    (x : SimpleFieldState) :
    (((PostprocessCardValidateResult groups x).value.filter
        Char.isDigit : List Char) : Multiset Char)
      = ((x.value.filter Char.isDigit : List Char) : Multiset Char) := by
  have h := congrArg SimpleFieldState.value (numbersOnly_cardFormatLoop groups 0 x)
  simp only [NumbersOnlyState, RemoveNonNumbers] at h
  rw [PostprocessCardValidateResult]
  exact congrArg _ h

/-- C3 counterexample: applying the expiry-date formatter to its own output
is not a no-op: formatting `("35", 0)` yields `("03/5", 1)`, and formatting
that again yields `("03//5", 1)` — a second slash is inserted. -/
theorem c3_double_format_counterexample :
    PostprocessExpireDateValidateResult
        (PostprocessExpireDateValidateResult ⟨"35".toList, 0⟩)
      ≠ PostprocessExpireDateValidateResult ⟨"35".toList, 0⟩ := by
  decide

/-- C3 amended: applying a formatter directly to its own output is not a
no-op, but formatting is idempotent across the pipeline's restripping: for
every all-digit input state, restripping the formatter output with the
numbers-only projection and formatting again reproduces the card formatter
output exactly (same grouping scheme, in-bounds cursor) and reproduces the
expiry formatter output value. -/
theorem c3_format_restrip_idempotent :
    (∀ (groups : List Nat) (x : SimpleFieldState),
      (∀ c ∈ x.value, c.isDigit = true) → x.position ≤ x.value.length →
        PostprocessCardValidateResult groups
            (NumbersOnlyState (PostprocessCardValidateResult groups x))
          = PostprocessCardValidateResult groups x)
    ∧ (∀ (v : List Char) (p : Nat), (∀ c ∈ v, c.isDigit = true) →
        (PostprocessExpireDateValidateResult
            (NumbersOnlyState
              (PostprocessExpireDateValidateResult ⟨v, p⟩))).value
          = (PostprocessExpireDateValidateResult ⟨v, p⟩).value) :=
  ⟨card_restrip_idempotent, expire_restrip_value⟩

/-- C3 witness: the amended idempotence at the concrete card state
`("42424242", 4)` with grouping `[4, 4]` and the concrete expiry state
`("35", 0)`. -/
theorem c3_format_restrip_idempotent_witness :
    PostprocessCardValidateResult [4, 4]
        (NumbersOnlyState
          (PostprocessCardValidateResult [4, 4] ⟨"42424242".toList, 4⟩))
      = PostprocessCardValidateResult [4, 4] ⟨"42424242".toList, 4⟩
    ∧ (PostprocessExpireDateValidateResult
        (NumbersOnlyState
          (PostprocessExpireDateValidateResult ⟨"35".toList, 0⟩))).value
      = (PostprocessExpireDateValidateResult ⟨"35".toList, 0⟩).value :=
  ⟨c3_format_restrip_idempotent.1 [4, 4] ⟨"42424242".toList, 4⟩
      (by decide) (by decide),
    c3_format_restrip_idempotent.2 "35".toList 0 (by decide)⟩

/-- C4 counterexample: formatting the stripped digits `"4242424242424242"`
under grouping scheme `[4,4,4,4,4]` with stripped cursor 8 does not put the
display cursor at offset 9. -/
theorem c4_cursor_nine_counterexample :
    (PostprocessCardValidateResult [4, 4, 4, 4, 4]
        ⟨"4242424242424242".toList, 8⟩).position ≠ 9 := by
  decide

/-- C4 amended: the value formats to `"4242 4242 4242 4242"` as claimed,
but the stripped cursor 8 lands at display offset 10: both inserted spaces
at or before it count, including the space inserted exactly at the cursor
(the source compares with `>=`). -/
theorem c4_card_grouping_value_cursor :
    PostprocessCardValidateResult [4, 4, 4, 4, 4]
        ⟨"4242424242424242".toList, 8⟩
      = ⟨"4242 4242 4242 4242".toList, 10⟩ := by
  decide

/-- C5 counterexample: the expiry formatter applied to stripped `"3"` does
not yield the value `"03"`. -/
theorem c5_single_three_counterexample :
    (PostprocessExpireDateValidateResult ⟨['3'], 1⟩).value ≠ "03".toList := by
  decide

/-- C5 amended: stripped `"3"` (cursor 1) formats to `"03/"` — the leading
zero is inserted and the slash separator is appended immediately, the
cursor moving from 1 to 3; stripped `"035"` (cursor 3) formats to `"03/5"`
with cursor 4. -/
theorem c5_expire_examples :
    PostprocessExpireDateValidateResult ⟨['3'], 1⟩ = ⟨"03/".toList, 3⟩
      ∧ PostprocessExpireDateValidateResult ⟨"035".toList, 3⟩
        = ⟨"03/5".toList, 4⟩ := by
  decide

/-- C6 counterexample: the expiry formatter applied to stripped `"13"` does
not truncate it to `"1"`. -/
theorem c6_thirteen_counterexample :
    (PostprocessExpireDateValidateResult ⟨"13".toList, 2⟩).value ≠ ['1'] := by
  decide

/-- C6 amended: stripped `"13"` is returned unchanged as `"13"` (the
invalid-month branch keeps the first two characters via `mid(0, 2)` and
skips the slash, for any cursor); a digit is only dropped from longer
inputs, e.g. stripped `"135"` truncates to `"13"`. -/
theorem c6_thirteen_behavior :
    (∀ p : Nat,
      PostprocessExpireDateValidateResult ⟨['1', '3'], p⟩ = ⟨['1', '3'], p⟩)
      ∧ PostprocessExpireDateValidateResult ⟨"135".toList, 2⟩
        = ⟨"13".toList, 2⟩ := by
  refine ⟨fun p => ?_, by decide⟩
  unfold PostprocessExpireDateValidateResult
  simp [qCharAt, qMid]

/-- C7: the expiry formatter reads character position 1 of the one-character
stripped value `"1"` — position 1 is not strictly within the bounds of a
length-1 string, so the read at line 74 indexes past the end (the Qt 5
`QCharRef` out-of-range read yields the null character, so the value is
still returned unchanged). -/
theorem c7_expire_reads_index_one_of_singleton :
    1 ∈ expireReadIndices ['1']
      ∧ ¬ 1 < (['1'] : List Char).length
      ∧ PostprocessExpireDateValidateResult ⟨['1'], 1⟩ = ⟨['1'], 1⟩ := by
  decide

/-- C8: `IsBackspace` holds exactly when the before snapshot has no
selection, the before cursor is one past the after cursor, the text before
the deleted position is unchanged, and the suffix after the before cursor
equals the suffix after the after cursor; in particular it classifies
before `("1234", cursor 4)`, after `("123", cursor 3)` as a backward
delete. -/
theorem c8_isBackspace_characterization :
    (∀ r : FieldValidateRequest,
      IsBackspace r = true ↔
        (r.wasAnchor = r.wasPosition
          ∧ r.wasPosition = r.nowPosition + 1
          ∧ r.wasValue.take r.nowPosition = r.nowValue.take r.nowPosition
          ∧ r.wasValue.drop r.wasPosition = r.nowValue.drop r.nowPosition))
      ∧ IsBackspace ⟨"1234".toList, 4, 4, "123".toList, 3⟩ = true := by
  constructor
  · intro r
    unfold IsBackspace qMid qMidFrom
    simp only [Bool.and_eq_true, beq_iff_eq, List.drop_zero]
    constructor
    · rintro ⟨⟨⟨h1, h2⟩, h3⟩, h4⟩
      refine ⟨h1, h2, ?_, h4⟩
      have hp : r.wasPosition - 1 = r.nowPosition := by omega
      rwa [hp] at h3
    · rintro ⟨h1, h2, h3, h4⟩
      refine ⟨⟨⟨h1, h2⟩, ?_⟩, h4⟩
      have hp : r.wasPosition - 1 = r.nowPosition := by omega
      rwa [hp]
  · decide

/-- C9 counterexample: for the backward-delete request with before snapshot
`("12", cursor 2 → stripped cursor 1)` — concretely before `("12", 1, 1)`,
after `("2", 0)` — the code removes the digit at stripped index 0 and
returns `("2", 0)`, while the claim prescribes removing the digit at the
(clamped) cursor, which yields `("1", 0)`. -/
theorem c9_backspace_cursor_one_counterexample :
    IsBackspace ⟨"12".toList, 1, 1, "2".toList, 0⟩ = true
      ∧ IsDelete ⟨"12".toList, 1, 1, "2".toList, 0⟩ = false
      ∧ complexRealNowState ⟨"12".toList, 1, 1, "2".toList, 0⟩
        ≠ specBackspaceReconstruct
          (NumbersOnlyState ⟨"12".toList, 1⟩) := by
  decide

/-- C9 amended: for every request classified as BackwardDelete (and not
ForwardDelete), the reconstruction starts from the numbers-only projection
of the before snapshot and removes the digit immediately before the
stripped cursor whenever the stripped cursor is at least 1 (it removes
nothing when the stripped cursor is 0); the resulting cursor is the
stripped cursor decreased by one, floored at 0. -/
theorem c9_backspace_reconstruction (r : FieldValidateRequest)
    (hb : IsBackspace r = true) (hd : IsDelete r = false) :
    complexRealNowState r
      = { value :=
            if (NumbersOnlyState ⟨r.wasValue, r.wasPosition⟩).position = 0 then
              (NumbersOnlyState ⟨r.wasValue, r.wasPosition⟩).value
            else
              (NumbersOnlyState ⟨r.wasValue, r.wasPosition⟩).value.eraseIdx
                ((NumbersOnlyState ⟨r.wasValue, r.wasPosition⟩).position - 1),
          position := (NumbersOnlyState ⟨r.wasValue, r.wasPosition⟩).position - 1 } := by
  unfold complexRealNowState
  simp only [hb, hd, Bool.not_true, Bool.not_false, Bool.false_and,
    Bool.false_eq_true, if_false]
  set s := NumbersOnlyState ⟨r.wasValue, r.wasPosition⟩ with hs
  by_cases h0 : s.position = 0
  · simp [h0, qMidFrom]
  · by_cases h1 : s.position = 1
    · simp [h1, qMid, qMidFrom, List.eraseIdx_zero, List.drop_one]
    · have hgt : 1 < s.position := by omega
      simp only [if_pos hgt, if_neg h0]
      refine congrArg₂ SimpleFieldState.mk ?_ rfl
      rw [List.eraseIdx_eq_take_drop_succ]
      have hp : s.position - 1 + 1 = s.position := by omega
      rw [hp]
      simp [qMid, qMidFrom]

/-- C9 witness: the amended reconstruction at the concrete backspace
request before `("12", 2, 2)`, after `("1", 1)`. -/
theorem c9_backspace_reconstruction_witness :
    complexRealNowState ⟨"12".toList, 2, 2, "1".toList, 1⟩ = ⟨['1'], 1⟩ :=
  (c9_backspace_reconstruction ⟨"12".toList, 2, 2, "1".toList, 1⟩
    (by decide) (by decide)).trans (by decide)

/-- C10 counterexample: at the backward-delete request before
`("1 2", 2, 2)`, after `("12", 1)` (the deleted character is the separator
space), the CVC validator returns the stripped after snapshot `("12", 1)`,
while the differencer reconstruction used by the card-number and
expiry-date pipelines yields `("2", 0)`. -/
theorem c10_cvc_backspace_counterexample :
    IsBackspace ⟨"1 2".toList, 2, 2, "12".toList, 1⟩ = true
      ∧ CvcValidatorState ⟨"1 2".toList, 2, 2, "12".toList, 1⟩
        ≠ complexRealNowState ⟨"1 2".toList, 2, 2, "12".toList, 1⟩ := by
  decide

/-- C10 amended: the CVC validator takes the numbers-only projection of the
after snapshot verbatim, with no snapshot diffing; it agrees with the
differencer reconstruction used by the card-number and expiry-date
pipelines exactly on requests classified as neither BackwardDelete nor
ForwardDelete. -/
theorem c10_cvc_matches_on_other_edits (r : FieldValidateRequest)
    (hb : IsBackspace r = false) (hd : IsDelete r = false) :
    CvcValidatorState r = complexRealNowState r := by
  unfold CvcValidatorState complexRealNowState
  simp [hb, hd]

/-- C10 witness: the agreement at the concrete typed-character request
before `("1", 1, 1)`, after `("12", 2)`. -/
theorem c10_cvc_matches_on_other_edits_witness :
    CvcValidatorState ⟨"1".toList, 1, 1, "12".toList, 2⟩
      = complexRealNowState ⟨"1".toList, 1, 1, "12".toList, 2⟩ :=
  c10_cvc_matches_on_other_edits ⟨"1".toList, 1, 1, "12".toList, 2⟩
    (by decide) (by decide)

end PaymentsEditCard
